import Mathlib

/-!
Shallow embedding of the pydantic-models repository: the schemas declared in
src/1_pydantic.py .. src/6_serialization.py, together with the
validation-and-serialization pipeline those schemas configure.  The pipeline
itself (coercion, constraint checking, accumulation of violations, defaults,
nested validation, serialization filtering) lives in the pydantic library, not
under src/, so it is modelled from the specification's description of
`validate` and `serialize`; the field descriptors, constraint values,
custom validators and sample inputs are translated directly from src/.
-/

/-! ## String helpers (character-list based, executable) -/

/-- Split a character list at every occurrence of `c` (auxiliary). -/
def splitCharsAux (c : Char) : List Char → List Char → List (List Char)
  | [], acc => [acc.reverse]
  | x :: xs, acc =>
    if x = c then acc.reverse :: splitCharsAux c xs []
    else splitCharsAux c xs (x :: acc)

/-- Split a character list at every occurrence of `c`. -/
def splitChars (l : List Char) (c : Char) : List (List Char) :=
  splitCharsAux c l []

/-- Decimal value of a digit list (most significant first). -/
def digitsToNat (l : List Char) : Nat :=
  l.foldl (fun n c => 10 * n + (c.toNat - 48)) 0

/-- Parse a nonempty all-digit character list as a natural number. -/
def parseNatList (l : List Char) : Option Nat :=
  if l.isEmpty then none
  else if l.all Char.isDigit then some (digitsToNat l) else none

/-- Parse a decimal integer string (optional leading minus), as Python
`int(str)` does for plain digit strings. -/
def parseIntStr (s : String) : Option Int :=
  match s.data with
  | '-' :: rest => (parseNatList rest).map (fun n => -(n : Int))
  | l => (parseNatList l).map (fun n => (n : Int))

/-- Parse an unsigned decimal fraction `digits` or `digits.digits` as an
exact rational (`intpart.fracpart` is `(intpart * 10^k + fracpart) / 10^k`). -/
def parseRatList (l : List Char) : Option Rat :=
  match splitChars l '.' with
  | [a] => (parseNatList a).map (fun n => mkRat n 1)
  | [a, b] =>
    match parseNatList a, parseNatList b with
    | some x, some y => some (mkRat (x * 10 ^ b.length + y) (10 ^ b.length))
    | _, _ => none
  | _ => none

/-- Parse a decimal number string (optional leading minus) as an exact
rational, the numeric reading Python `float(str)` gives such strings. -/
def parseRatStr (s : String) : Option Rat :=
  match s.data with
  | '-' :: rest => (parseRatList rest).map (fun q => mkRat (-q.num) q.den)
  | l => parseRatList l

/-- Exact rational multiplication by cross products (kept in smart-normalized
form so that every pipeline value evaluates definitionally). -/
def ratMul (a b : Rat) : Rat := mkRat (a.num * b.num) (a.den * b.den)

/-- Exact rational division: `a / b = (a.num * b.den) / (a.den * b.num)`,
with the sign moved to the numerator (0 when `b` is 0). -/
def ratDiv (a b : Rat) : Rat := mkRat (a.num * b.den * b.num.sign) (a.den * b.num.natAbs)

/-- Exact rational subtraction by cross products. -/
def ratSub (a b : Rat) : Rat := mkRat (a.num * b.den - b.num * a.den) (a.den * b.den)

/-- Does `pat` occur as an initial segment of `l`? -/
def startsWithList : List Char → List Char → Bool
  | [], _ => true
  | _ :: _, [] => false
  | a :: as, b :: bs => a = b && startsWithList as bs

/-- Modelled from the spec: `EmailStr` "enforces valid email format"; the
exact format rules are library-internal, so a well-formed address is taken to
be `local@domain` with nonempty parts and a dot in the domain. -/
def emailOk (s : String) : Bool :=
  match splitChars s.data '@' with
  | [a, b] => !a.isEmpty && !b.isEmpty && b.contains '.'
  | _ => false

/-- Modelled from the spec: `AnyUrl` "ensures it is a valid URL"; the exact
rules are library-internal, so a URL is taken to be an http(s) locator. -/
def urlOk (s : String) : Bool :=
  startsWithList ("http://").data s.data || startsWithList ("https://").data s.data

/-- The domain part used by `email_validator` in src/2_field_validator.py:
`value.split('@')[-1]`. -/
def domainOf (s : String) : String :=
  String.mk ((splitChars s.data '@').getLastD [])

/-! ## Values

Input mappings and record fields hold dynamically-typed values: the input
literals of the source use strings, ints, floats (modelled as exact
rationals), booleans, string lists, string-to-string dicts, nested mappings
and None. -/

inductive Value where
  | vStr (s : String)
  | vInt (n : Int)
  | vFloat (q : Rat)
  | vBool (b : Bool)
  | vListStr (l : List String)
  | vDict (l : List (String × String))
  | vMap (l : List (String × Value))
  | vNone

/-- First-match lookup in an input mapping, as Python dict access. -/
def findVal : List (String × Value) → String → Option Value
  | [], _ => none
  | (k, v) :: rest, key => if k = key then some v else findVal rest key

/-! ## Constraints and field descriptors (from the `Field(...)` annotations
in src/) -/

inductive Constraint where
  | maxLength (n : Nat)
  | minLength (n : Nat)
  | gt (b : Rat)
  | lt (b : Rat)
  | ge (b : Rat)
  | le (b : Rat)
  | oneOf (l : List String)
  | emailFormat
  | urlFormat
deriving DecidableEq

/-- Error taxonomy of the spec: MissingField, TypeMismatch, CoercionFailure,
ConstraintViolation, CustomValidationFailure. -/
inductive VErr where
  | missingField
  | typeMismatch
  | coercionFailure
  | constraintViolation (c : Constraint)
  | customFailure (msg : String)
deriving DecidableEq

/-- A violation: (field path, error).  Nested paths are `parent.child`. -/
abbrev Violation := String × VErr

/-- Declared field types of the schemas under src/ (nested-schema fields are
handled by dedicated per-schema functions below). -/
inductive FType where
  | tStr
  | tInt
  | tFloat
  | tBool
  | tListStr
  | tDict
deriving DecidableEq

structure FieldDesc where
  ftype : FType
  optional : Bool := false
  strict : Bool := false
  constraints : List Constraint := []
  default : Option Value := none

/-- Numeric reading of a value, for bound constraints. -/
def asNum : Value → Option Rat
  | .vInt n => some (n : Rat)
  | .vFloat q => some q
  | _ => none

/-- Evaluate one constraint on a coerced value; constraints that do not
apply to the value's shape pass (in the source they can only be attached to
fields of the matching shape, and `None` short-circuits Optional fields). -/
def checkConstraint : Constraint → Value → Bool
  | .maxLength n, .vStr s => decide (s.length ≤ n)
  | .maxLength n, .vListStr l => decide (l.length ≤ n)
  | .maxLength _, _ => true
  | .minLength n, .vStr s => decide (n ≤ s.length)
  | .minLength n, .vListStr l => decide (n ≤ l.length)
  | .minLength _, _ => true
  | .gt b, v => match asNum v with | some q => decide (b < q) | none => true
  | .lt b, v => match asNum v with | some q => decide (q < b) | none => true
  | .ge b, v => match asNum v with | some q => decide (b ≤ q) | none => true
  | .le b, v => match asNum v with | some q => decide (q ≤ b) | none => true
  | .oneOf l, .vStr s => l.contains s
  | .oneOf _, _ => true
  | .emailFormat, .vStr s => emailOk s
  | .emailFormat, _ => true
  | .urlFormat, .vStr s => urlOk s
  | .urlFormat, _ => true

/-- Does a value conform to a declared (possibly optional) field type? -/
def conformsToType (t : FType) (opt : Bool) : Value → Bool
  | .vNone => opt
  | .vStr _ => t = .tStr
  | .vInt _ => t = .tInt
  | .vFloat _ => t = .tFloat
  | .vBool _ => t = .tBool
  | .vListStr _ => t = .tListStr
  | .vDict _ => t = .tDict
  | .vMap _ => false

/-- Modelled from the spec: type coercion.  String/bool fields require the
exact type; integer and float fields additionally accept a same-shaped
string and parse it unless the descriptor is strict; sequence and mapping
fields require the literal container type. -/
def coerceValue (d : FieldDesc) : Value → Except VErr Value
  | .vNone => if d.optional then .ok .vNone else .error .typeMismatch
  | .vStr s =>
    match d.ftype with
    | .tStr => .ok (.vStr s)
    | .tInt =>
      if d.strict then .error .typeMismatch
      else match parseIntStr s with
        | some n => .ok (.vInt n)
        | none => .error .coercionFailure
    | .tFloat =>
      if d.strict then .error .typeMismatch
      else match parseRatStr s with
        | some q => .ok (.vFloat q)
        | none => .error .coercionFailure
    | _ => .error .typeMismatch
  | .vInt n => if d.ftype = .tInt then .ok (.vInt n) else .error .typeMismatch
  | .vFloat q => if d.ftype = .tFloat then .ok (.vFloat q) else .error .typeMismatch
  | .vBool b => if d.ftype = .tBool then .ok (.vBool b) else .error .typeMismatch
  | .vListStr l => if d.ftype = .tListStr then .ok (.vListStr l) else .error .typeMismatch
  | .vDict m => if d.ftype = .tDict then .ok (.vDict m) else .error .typeMismatch
  | .vMap _ => .error .typeMismatch

/-- Evaluate the attached constraints in attachment order; the first failing
constraint aborts this field's validation with a ConstraintViolation. -/
def checkConstraints (name : String) : List Constraint → Value → Except (List Violation) Value
  | [], v => .ok v
  | c :: rest, v =>
    if checkConstraint c v then checkConstraints name rest v
    else .error [(name, .constraintViolation c)]

/-- Coerce a present input value and run the field's constraints. -/
def coerceAndCheck (name : String) (d : FieldDesc) (v : Value) : Except (List Violation) Value :=
  match coerceValue d v with
  | .error e => .error [(name, e)]
  | .ok v2 => checkConstraints name d.constraints v2

/-- Modelled from the spec: one field of the validate pipeline.  An absent
field falls back to its default if present (defaults are applied as given,
without re-validation) and otherwise yields a MissingField violation; a
present value is coerced and constraint-checked. -/
def fieldResult (name : String) (d : FieldDesc) (input : List (String × Value)) :
    Except (List Violation) Value :=
  match findVal input name with
  | none =>
    match d.default with
    | some dv => .ok dv
    | none => .error [(name, .missingField)]
  | some v => coerceAndCheck name d v

/-- The violations of a field result (empty when the field validated). -/
def errsOf (x : Except (List Violation) Value) : List Violation :=
  match x with
  | .ok _ => []
  | .error e => e

/-- The value of a field result (dummy `vNone` in the error case; only read
when the accumulated violation list is empty). -/
def valOf (x : Except (List Violation) Value) : Value :=
  match x with
  | .ok v => v
  | .error _ => .vNone

/-! ## Records and serialization -/

/-- A validated Record: the field-name-to-value mapping, the set of field
names the caller explicitly supplied (needed by `excludeUnset`
serialization), and the lazy cache slot for the derived BMI field of
src/4_computed_fields.py. -/
structure Record where
  values : List (String × Value)
  supplied : List String
  bmiCache : Option Rat := none

/-- A Validation Outcome: a Record or the accumulated violations. -/
abbrev Outcome := Except (List Violation) Record

/-- Build the outcome from the accumulated violation list: all-or-nothing. -/
def mkOut (errs : List Violation) (r : Record) : Outcome :=
  if errs.isEmpty then .ok r else .error errs

/-- The schema field names present in the input, in declaration order. -/
def suppliedOf (names : List String) (input : List (String × Value)) : List String :=
  names.filter (fun k => (findVal input k).isSome)

/-- Serialization options of `model_dump`: `include`, `exclude`,
`exclude_unset`. -/
structure DumpOpts where
  includeOnly : Option (List String) := none
  excludeFields : List String := []
  excludeUnset : Bool := false

/-- Should field `k` of record `r` appear in the dump? -/
def keepField (o : DumpOpts) (r : Record) (k : String) : Bool :=
  (match o.includeOnly with | none => true | some l => l.contains k)
    && !(o.excludeFields.contains k)
    && (!o.excludeUnset || r.supplied.contains k)

/-- Modelled from the spec: `serialize(record, options)` produces the
name-to-value mapping restricted by the options. -/
def serialize (r : Record) (o : DumpOpts) : List (String × Value) :=
  r.values.filter (fun kv => keepField o r kv.1)

/-- The key list of a dump. -/
def dumpKeys (r : Record) (o : DumpOpts) : List String :=
  (serialize r o).map Prod.fst

/-! ## Schema of src/1_pydantic.py (the "MODIFIED way" declarations) -/

/-- `name: Annotated[str, Field(max_length=50, ...)]` -/
def nameDesc : FieldDesc := { ftype := .tStr, constraints := [.maxLength 50] }

/-- `email: EmailStr` -/
def emailDesc : FieldDesc := { ftype := .tStr, constraints := [.emailFormat] }

/-- `linkedin: AnyUrl` -/
def linkedinDesc : FieldDesc := { ftype := .tStr, constraints := [.urlFormat] }

/-- `age: int = Field(gt=0, lt=25)` -/
def ageDesc : FieldDesc := { ftype := .tInt, constraints := [.gt 0, .lt 25] }

/-- `weight: Annotated[float, Field(gt=0, strict=True)]` -/
def weightDesc : FieldDesc := { ftype := .tFloat, strict := true, constraints := [.gt 0] }

/-- `married: Annotated[bool, Field(default=None, ...)]` -/
def marriedDesc : FieldDesc := { ftype := .tBool, default := some .vNone }

/-- `allergies: Annotated[Optional[List[str]], Field(default='No allergies', max_length=5)]` -/
def allergiesDesc : FieldDesc :=
  { ftype := .tListStr, optional := true, constraints := [.maxLength 5],
    default := some (.vStr "No allergies") }

/-- `contact_details: Dict[str, str]` -/
def contactDesc : FieldDesc := { ftype := .tDict }

/-- Field names of the file-1 Patient schema, in declaration order. -/
def names1 : List String :=
  ["name", "email", "linkedin", "age", "weight", "married", "allergies", "contact_details"]

/-- `Patient(**input)` of src/1_pydantic.py: validate each field in
declaration order, accumulate the violations, and construct the Record only
when the list is empty. -/
def validate1 (input : List (String × Value)) : Outcome :=
  let rn := fieldResult "name" nameDesc input
  let re := fieldResult "email" emailDesc input
  let rl := fieldResult "linkedin" linkedinDesc input
  let ra := fieldResult "age" ageDesc input
  let rw := fieldResult "weight" weightDesc input
  let rm := fieldResult "married" marriedDesc input
  let rg := fieldResult "allergies" allergiesDesc input
  let rc := fieldResult "contact_details" contactDesc input
  mkOut (errsOf rn ++ errsOf re ++ errsOf rl ++ errsOf ra ++ errsOf rw ++
         errsOf rm ++ errsOf rg ++ errsOf rc)
    { values := [("name", valOf rn), ("email", valOf re), ("linkedin", valOf rl),
                 ("age", valOf ra), ("weight", valOf rw), ("married", valOf rm),
                 ("allergies", valOf rg), ("contact_details", valOf rc)],
      supplied := suppliedOf names1 input }

/-- The `patient_info` literal of src/1_pydantic.py (no `married`, no
`allergies` key; `age` is the string "22"; `weight` is the float 44.2). -/
def patientInfo1 : List (String × Value) :=
  [("name", .vStr "harsha"),
   ("email", .vStr "abc@gmail.com"),
   ("linkedin", .vStr "http://linkedin.com/"),
   ("age", .vStr "22"),
   ("weight", .vFloat (mkRat 221 5)),
   ("contact_details", .vDict [("email", "abc@gmail.com"), ("phone", "12345")])]

/-! ## Schema of src/2_field_validator.py

Same field layer as file 1 plus three field validators: `email_validator`
(after-mode, domain whitelist), `transform_name` (after-mode, uppercases) and
`validate_age` (before-mode, compares the raw value against 0 and 50 with
Python `<`).  A before-mode validator sees the raw input value, so the
comparison itself can raise an uncontrolled `TypeError` when the raw value is
a string; such faults are modelled as the error of an outer `Except String`
layer, distinct from Validation Outcome failures. -/

/-- Python `n < v` for an int literal against a dynamic value: defined on
numbers and booleans, a `TypeError` fault on strings and other shapes. -/
def pyIntLtVal (n : Int) : Value → Except String Bool
  | .vInt m => .ok (decide (n < m))
  | .vFloat q => .ok (decide ((n : Rat) < q))
  | .vBool b => .ok (decide (n < (if b then 1 else 0)))
  | .vStr _ => .error "TypeError: < not supported between instances of int and str"
  | _ => .error "TypeError: unorderable types"

/-- Python `v < n` for a dynamic value against an int literal. -/
def pyValLtInt (n : Int) : Value → Except String Bool
  | .vInt m => .ok (decide (m < n))
  | .vFloat q => .ok (decide (q < (n : Rat)))
  | .vBool b => .ok (decide ((if b then (1 : Int) else 0) < n))
  | .vStr _ => .error "TypeError: < not supported between instances of str and int"
  | _ => .error "TypeError: unorderable types"

/-- `validate_age` of src/2_field_validator.py: `if 0 < value < 50: return
value else raise ValueError(...)`, run before coercion on the raw value.
Python chains the comparison left to right and short-circuits. -/
def validateAgeBefore (v : Value) : Except String (Except (List Violation) Value) := do
  let b1 ← pyIntLtVal 0 v
  if b1 then do
    let b2 ← pyValLtInt 50 v
    if b2 then pure (.ok v)
    else pure (.error [("age", .customFailure "Age should be in between 0 and 50")])
  else pure (.error [("age", .customFailure "Age should be in between 0 and 50")])

/-- The age field of file 2: the before-mode validator on the raw value, then
the built-in coercion and the `gt=0, lt=25` constraints. -/
def ageResult2 (input : List (String × Value)) :
    Except String (Except (List Violation) Value) :=
  match findVal input "age" with
  | none => pure (.error [("age", .missingField)])
  | some v => do
    let r ← validateAgeBefore v
    match r with
    | .error e => pure (.error e)
    | .ok v2 => pure (coerceAndCheck "age" ageDesc v2)

/-- `email_validator` of src/2_field_validator.py: after-mode, the domain
must be `hdfc.com` or `icici.com`, else `ValueError('Not a valid domain')`. -/
def emailDomainCheck : Except (List Violation) Value → Except (List Violation) Value
  | .ok (.vStr s) =>
    if ["hdfc.com", "icici.com"].contains (domainOf s) then .ok (.vStr s)
    else .error [("email", .customFailure "Not a valid domain")]
  | x => x

/-- `transform_name` of src/2_field_validator.py: after-mode, uppercases. -/
def nameUpper : Except (List Violation) Value → Except (List Violation) Value
  | .ok (.vStr s) => .ok (.vStr s.toUpper)
  | x => x

/-- `Patient(**input)` of src/2_field_validator.py.  The outer `Except
String` layer carries uncontrolled Python faults; its `.ok` payload is the
Validation Outcome. -/
def validate2 (input : List (String × Value)) : Except String Outcome := do
  let rn := nameUpper (fieldResult "name" nameDesc input)
  let re := emailDomainCheck (fieldResult "email" emailDesc input)
  let rl := fieldResult "linkedin" linkedinDesc input
  let ra ← ageResult2 input
  let rw := fieldResult "weight" weightDesc input
  let rm := fieldResult "married" marriedDesc input
  let rg := fieldResult "allergies" allergiesDesc input
  let rc := fieldResult "contact_details" contactDesc input
  pure (mkOut (errsOf rn ++ errsOf re ++ errsOf rl ++ errsOf ra ++ errsOf rw ++
               errsOf rm ++ errsOf rg ++ errsOf rc)
    { values := [("name", valOf rn), ("email", valOf re), ("linkedin", valOf rl),
                 ("age", valOf ra), ("weight", valOf rw), ("married", valOf rm),
                 ("allergies", valOf rg), ("contact_details", valOf rc)],
      supplied := suppliedOf names1 input })

/-- The `patient_info` literal of src/2_field_validator.py with the raw age
given as the string "28" (the shape file 1 and file 3 use for age). -/
def patientInfo2Str : List (String × Value) :=
  [("name", .vStr "harsha"),
   ("email", .vStr "abc@hdfc.com"),
   ("linkedin", .vStr "http://linkedin.com/"),
   ("age", .vStr "28"),
   ("weight", .vFloat (mkRat 221 5)),
   ("contact_details", .vDict [("email", "abc@gmail.com"), ("phone", "12345")])]

/-! ## Schema of src/3_model_validator.py

Same field layer as file 1 (same descriptors and constraints), plus the
after-mode model validator `validate_emergency_contact`. -/

/-- The field phase of `Patient(**input)` of src/3_model_validator.py. -/
def validate3Fields (input : List (String × Value)) : Outcome :=
  validate1 input

/-- The age stored in a record (0 when absent or non-integer; only read on
records built by the validators, whose age field is an integer). -/
def ageOf (r : Record) : Int :=
  match findVal r.values "age" with
  | some (.vInt n) => n
  | _ => 0

/-- Does the record's `contact_details` dict have an `emergency` key? -/
def hasEmergency (r : Record) : Bool :=
  match findVal r.values "contact_details" with
  | some (.vDict m) => (m.map Prod.fst).contains "emergency"
  | _ => false

/-- `validate_emergency_contact` of src/3_model_validator.py: after the full
model is built, `if model.age > 60 and 'emergency' not in
model.contact_details: raise ValueError(...)`. -/
def emergencyValidator (r : Record) : Outcome :=
  if decide (60 < ageOf r) && !hasEmergency r then
    .error [("", .customFailure "patients older than 60 must have emergency contact")]
  else .ok r

/-- `Patient(**input)` of src/3_model_validator.py: the field phase, then the
model validator exactly once when the field phase produced a record. -/
def validate3 (input : List (String × Value)) : Outcome :=
  match validate3Fields input with
  | .error e => .error e
  | .ok r => emergencyValidator r

/-! ## Schema of src/4_computed_fields.py -/

/-- `age: Annotated[int, Field(gt=0, lt=120)]` -/
def ageDesc4 : FieldDesc := { ftype := .tInt, constraints := [.gt 0, .lt 120] }

/-- `weight: Annotated[float, Field(gt=0)]` (non-strict). -/
def weightDesc4 : FieldDesc := { ftype := .tFloat, constraints := [.gt 0] }

/-- `height: Annotated[float, Field(gt=0)]` -/
def heightDesc4 : FieldDesc := { ftype := .tFloat, constraints := [.gt 0] }

/-- `married: Annotated[bool, Field(default=False, ...)]` -/
def marriedDesc4 : FieldDesc := { ftype := .tBool, default := some (.vBool false) }

/-- `allergies: Annotated[List[str], Field(default_factory=list, max_length=10, ...)]` -/
def allergiesDesc4 : FieldDesc :=
  { ftype := .tListStr, constraints := [.maxLength 10], default := some (.vListStr []) }

/-- Field names of the file-4 Patient schema, in declaration order. -/
def names4 : List String :=
  ["name", "email", "linkedin", "age", "weight", "height", "married", "allergies",
   "contact_details"]

/-- `Patient(**input)` of src/4_computed_fields.py.  The derived field
`calculate_bmi` is not an input field: it has no descriptor here and the
record starts with an empty cache slot. -/
def validate4 (input : List (String × Value)) : Outcome :=
  let rn := fieldResult "name" nameDesc input
  let re := fieldResult "email" emailDesc input
  let rl := fieldResult "linkedin" linkedinDesc input
  let ra := fieldResult "age" ageDesc4 input
  let rw := fieldResult "weight" weightDesc4 input
  let rh := fieldResult "height" heightDesc4 input
  let rm := fieldResult "married" marriedDesc4 input
  let rg := fieldResult "allergies" allergiesDesc4 input
  let rc := fieldResult "contact_details" contactDesc input
  mkOut (errsOf rn ++ errsOf re ++ errsOf rl ++ errsOf ra ++ errsOf rw ++
         errsOf rh ++ errsOf rm ++ errsOf rg ++ errsOf rc)
    { values := [("name", valOf rn), ("email", valOf re), ("linkedin", valOf rl),
                 ("age", valOf ra), ("weight", valOf rw), ("height", valOf rh),
                 ("married", valOf rm), ("allergies", valOf rg),
                 ("contact_details", valOf rc)],
      supplied := suppliedOf names4 input,
      bmiCache := none }

/-- Round half to even at integer precision, the tie rule of Python
`round` (applied here to the exact rational value). -/
def roundHalfEven (q : Rat) : Int :=
  let f := q.floor
  let r := ratSub q (mkRat f 1)
  if r < mkRat 1 2 then f
  else if mkRat 1 2 < r then f + 1
  else if f % 2 = 0 then f else f + 1

/-- `round(x, 2)` of Python on the exact rational value. -/
def round2 (q : Rat) : Rat :=
  mkRat (roundHalfEven (ratMul q (mkRat 100 1))) 100

/-- A float field of a record (0 when absent or non-float; only read on
records built by `validate4`, whose weight and height fields are floats). -/
def getFloatField (r : Record) (k : String) : Rat :=
  match findVal r.values k with
  | some (.vFloat q) => q
  | _ => 0

/-- `calculate_bmi` of src/4_computed_fields.py:
`round(self.weight / (self.height ** 2), 2)`, evaluated lazily on first read
and cached in the record's cache slot; returns the value and the record
after the read. -/
def readBMI (r : Record) : Rat × Record :=
  match r.bmiCache with
  | some q => (q, r)
  | none =>
    let w := getFloatField r "weight"
    let h := getFloatField r "height"
    let q := round2 (ratDiv w (ratMul h h))
    (q, { r with bmiCache := some q })

/-- The `patient_info` literal of src/4_computed_fields.py (weight 75.2,
height 1.72, age the string "28", married and allergies supplied). -/
def patientInfo4 : List (String × Value) :=
  [("name", .vStr "harsha"),
   ("email", .vStr "abc@hdfc.com"),
   ("linkedin", .vStr "http://linkedin.com/"),
   ("age", .vStr "28"),
   ("weight", .vFloat (mkRat 376 5)),
   ("height", .vFloat (mkRat 43 25)),
   ("married", .vBool true),
   ("allergies", .vListStr ["pollen", "dust"]),
   ("contact_details", .vDict [("email", "abc@gmail.com"), ("phone", "12345")])]

/-! ## Schemas of src/5_nested_models.py (enhanced versions) -/

/-- `city: Annotated[str, Field(min_length=2, ...)]` -/
def cityDesc5 : FieldDesc := { ftype := .tStr, constraints := [.minLength 2] }

/-- `state: Annotated[str, Field(min_length=2, ...)]` -/
def stateDesc5 : FieldDesc := { ftype := .tStr, constraints := [.minLength 2] }

/-- `pin: Annotated[int, Field(ge=100000, le=999999, ...)]` -/
def pinDesc5 : FieldDesc := { ftype := .tInt, constraints := [.ge 100000, .le 999999] }

/-- `Address(**input)` of src/5_nested_models.py: validates city, state, pin
and yields the nested value mapping. -/
def validateAddress5 (input : List (String × Value)) :
    Except (List Violation) (List (String × Value)) :=
  let rc := fieldResult "city" cityDesc5 input
  let rs := fieldResult "state" stateDesc5 input
  let rp := fieldResult "pin" pinDesc5 input
  let errs := errsOf rc ++ errsOf rs ++ errsOf rp
  if errs.isEmpty then
    .ok [("city", valOf rc), ("state", valOf rs), ("pin", valOf rp)]
  else .error errs

/-- `gender: Annotated[str, Field(pattern="^(male|female|other)$", ...)]`;
the anchored alternation admits exactly the three listed words. -/
def genderDesc5 : FieldDesc := { ftype := .tStr, constraints := [.oneOf ["male", "female", "other"]] }

/-- `age: Annotated[int, Field(gt=0, lt=120, ...)]` -/
def ageDesc5 : FieldDesc := { ftype := .tInt, constraints := [.gt 0, .lt 120] }

/-- The nested `address: Address` field of the file-5 Patient: a present
mapping is validated recursively and a nested failure is reported under the
composite `address.child` path. -/
def addressField5 (input : List (String × Value)) : Except (List Violation) Value :=
  match findVal input "address" with
  | none => .error [("address", .missingField)]
  | some (.vMap m) =>
    match validateAddress5 m with
    | .ok vals => .ok (.vMap vals)
    | .error vs => .error (vs.map (fun pe => ("address." ++ pe.1, pe.2)))
  | some _ => .error [("address", .typeMismatch)]

/-- Field names of the file-5 Patient schema, in declaration order. -/
def names5 : List String := ["name", "gender", "age", "address"]

/-- `Patient(**input)` of src/5_nested_models.py. -/
def validate5 (input : List (String × Value)) : Outcome :=
  let rn := fieldResult "name" nameDesc input
  let rg := fieldResult "gender" genderDesc5 input
  let ra := fieldResult "age" ageDesc5 input
  let rd := addressField5 input
  mkOut (errsOf rn ++ errsOf rg ++ errsOf ra ++ errsOf rd)
    { values := [("name", valOf rn), ("gender", valOf rg), ("age", valOf ra),
                 ("address", valOf rd)],
      supplied := suppliedOf names5 input }

/-! ## Schemas of src/6_serialization.py (enhanced versions; the Address and
Patient fields carry descriptions but no constraints, and `name` has the
default value `'User'`). -/

/-- `city: Annotated[str, Field(description=...)]` -/
def cityDesc6 : FieldDesc := { ftype := .tStr }

/-- `state: Annotated[str, Field(description=...)]` -/
def stateDesc6 : FieldDesc := { ftype := .tStr }

/-- `pin: Annotated[int, Field(description=...)]` -/
def pinDesc6 : FieldDesc := { ftype := .tInt }

/-- `Address(**input)` of src/6_serialization.py. -/
def validateAddress6 (input : List (String × Value)) :
    Except (List Violation) (List (String × Value)) :=
  let rc := fieldResult "city" cityDesc6 input
  let rs := fieldResult "state" stateDesc6 input
  let rp := fieldResult "pin" pinDesc6 input
  let errs := errsOf rc ++ errsOf rs ++ errsOf rp
  if errs.isEmpty then
    .ok [("city", valOf rc), ("state", valOf rs), ("pin", valOf rp)]
  else .error errs

/-- `name: Annotated[str, Field(default='User', ...)]` -/
def nameDesc6 : FieldDesc := { ftype := .tStr, default := some (.vStr "User") }

/-- `gender: str` -/
def genderDesc6 : FieldDesc := { ftype := .tStr }

/-- `age: int` -/
def ageDesc6 : FieldDesc := { ftype := .tInt }

/-- The nested `address: Address` field of the file-6 Patient. -/
def addressField6 (input : List (String × Value)) : Except (List Violation) Value :=
  match findVal input "address" with
  | none => .error [("address", .missingField)]
  | some (.vMap m) =>
    match validateAddress6 m with
    | .ok vals => .ok (.vMap vals)
    | .error vs => .error (vs.map (fun pe => ("address." ++ pe.1, pe.2)))
  | some _ => .error [("address", .typeMismatch)]

/-- Field names of the file-6 Patient schema, in declaration order. -/
def names6 : List String := ["name", "gender", "age", "address"]

/-- `Patient(**input)` of src/6_serialization.py. -/
def validate6 (input : List (String × Value)) : Outcome :=
  let rn := fieldResult "name" nameDesc6 input
  let rg := fieldResult "gender" genderDesc6 input
  let ra := fieldResult "age" ageDesc6 input
  let rd := addressField6 input
  mkOut (errsOf rn ++ errsOf rg ++ errsOf ra ++ errsOf rd)
    { values := [("name", valOf rn), ("gender", valOf rg), ("age", valOf ra),
                 ("address", valOf rd)],
      supplied := suppliedOf names6 input }

/-- The validated `address1` of src/6_serialization.py
(`{'city': 'Pune', 'state': 'MH', 'pin': '414001'}` with the pin coerced). -/
def address6Values : List (String × Value) :=
  [("city", .vStr "Pune"), ("state", .vStr "MH"), ("pin", .vInt 414001)]

/-- The `patient_dict` literal of src/6_serialization.py: `name` commented
out (falls back to the default), `age` the string "28", `address` the
validated address model. -/
def patientDict6 : List (String × Value) :=
  [("gender", .vStr "female"),
   ("age", .vStr "28"),
   ("address", .vMap address6Values)]

/-! ## Helper lemmas about the pipeline -/

theorem findVal_cons_ne (k' : String) (v : Value) (l : List (String × Value))
    (key : String) (h : k' ≠ key) : findVal ((k', v) :: l) key = findVal l key := by
  simp [findVal, h]

theorem fieldResult_cons_ne (name k' : String) (v : Value) (d : FieldDesc)
    (input : List (String × Value)) (h : k' ≠ name) :
    fieldResult name d ((k', v) :: input) = fieldResult name d input := by
  unfold fieldResult
  rw [findVal_cons_ne k' v input name h]

theorem suppliedOf_cons_notmem (names : List String) (k' : String) (v : Value)
    (l : List (String × Value)) (h : k' ∉ names) :
    suppliedOf names ((k', v) :: l) = suppliedOf names l := by
  unfold suppliedOf
  apply List.filter_congr
  intro x hx
  have hne : k' ≠ x := fun heq => h (heq ▸ hx)
  rw [findVal_cons_ne k' v l x hne]

theorem mkOut_ok_iff (errs : List Violation) (r r' : Record) :
    mkOut errs r = .ok r' ↔ errs = [] ∧ r' = r := by
  cases errs with
  | nil => simp [mkOut, eq_comm]
  | cons h t => simp [mkOut]

theorem mkOut_error_of_ne (errs : List Violation) (r : Record) (h : errs ≠ []) :
    mkOut errs r = .error errs := by
  cases errs with
  | nil => exact absurd rfl h
  | cons a t => simp [mkOut]

theorem checkConstraints_ne_error_nil (name : String) (cs : List Constraint) (v : Value) :
    checkConstraints name cs v ≠ .error [] := by
  induction cs with
  | nil => simp [checkConstraints]
  | cons c rest ih =>
    simp only [checkConstraints]
    split
    · exact ih
    · simp

theorem coerceAndCheck_ne_error_nil (name : String) (d : FieldDesc) (v : Value) :
    coerceAndCheck name d v ≠ .error [] := by
  unfold coerceAndCheck
  cases coerceValue d v with
  | error e => simp
  | ok v2 => simpa using checkConstraints_ne_error_nil name d.constraints v2

theorem fieldResult_ne_error_nil (name : String) (d : FieldDesc)
    (input : List (String × Value)) : fieldResult name d input ≠ .error [] := by
  unfold fieldResult
  cases findVal input name with
  | none =>
    cases d.default with
    | none => simp
    | some dv => simp
  | some v => simpa using coerceAndCheck_ne_error_nil name d v

theorem ok_of_errs_nil (x : Except (List Violation) Value) (hne : x ≠ .error [])
    (h : errsOf x = []) : x = .ok (valOf x) := by
  cases x with
  | ok v => rfl
  | error e =>
    simp only [errsOf] at h
    exact absurd (h ▸ rfl) hne

theorem checkConstraints_ok_inv (name : String) (cs : List Constraint) (v v2 : Value)
    (h : checkConstraints name cs v = .ok v2) :
    v2 = v ∧ ∀ c ∈ cs, checkConstraint c v = true := by
  induction cs with
  | nil =>
    simp [checkConstraints] at h
    simp [h.symm]
  | cons c rest ih =>
    simp only [checkConstraints] at h
    split at h
    · rcases ih h with ⟨h1, h2⟩
      refine ⟨h1, ?_⟩
      intro c2 hc2
      rcases List.mem_cons.mp hc2 with h3 | h3
      · subst h3; assumption
      · exact h2 c2 h3
    · simp at h

theorem checkConstraints_of_all (name : String) (cs : List Constraint) (v : Value)
    (h : ∀ c ∈ cs, checkConstraint c v = true) : checkConstraints name cs v = .ok v := by
  induction cs with
  | nil => rfl
  | cons c rest ih =>
    simp only [checkConstraints]
    rw [h c (List.mem_cons_self c rest)]
    simp only [if_true]
    exact ih (fun c2 hc2 => h c2 (List.mem_cons_of_mem c hc2))

theorem coerce_ok_conforms (d : FieldDesc) (v v2 : Value)
    (h : coerceValue d v = .ok v2) : conformsToType d.ftype d.optional v2 = true := by
  cases v with
  | vNone =>
    simp only [coerceValue] at h
    split at h
    · cases h
      simpa [conformsToType]
    · cases h
  | vStr s =>
    cases hty : d.ftype <;> simp only [coerceValue, hty] at h
    · cases h
      simp [conformsToType, hty]
    · split at h
      · cases h
      · cases hp : parseIntStr s with
        | none => rw [hp] at h; cases h
        | some n => rw [hp] at h; cases h; simp [conformsToType, hty]
    · split at h
      · cases h
      · cases hp : parseRatStr s with
        | none => rw [hp] at h; cases h
        | some q => rw [hp] at h; cases h; simp [conformsToType, hty]
    · cases h
    · cases h
    · cases h
  | vInt n =>
    simp only [coerceValue] at h
    split at h
    · cases h
      rename_i hty
      simp [conformsToType, hty]
    · cases h
  | vFloat q =>
    simp only [coerceValue] at h
    split at h
    · cases h
      rename_i hty
      simp [conformsToType, hty]
    · cases h
  | vBool b =>
    simp only [coerceValue] at h
    split at h
    · cases h
      rename_i hty
      simp [conformsToType, hty]
    · cases h
  | vListStr l =>
    simp only [coerceValue] at h
    split at h
    · cases h
      rename_i hty
      simp [conformsToType, hty]
    · cases h
  | vDict m =>
    simp only [coerceValue] at h
    split at h
    · cases h
      rename_i hty
      simp [conformsToType, hty]
    · cases h
  | vMap m => cases h

theorem coerce_id_of_conforms (d : FieldDesc) (v : Value)
    (h : conformsToType d.ftype d.optional v = true) : coerceValue d v = .ok v := by
  cases v with
  | vNone =>
    simp only [conformsToType] at h
    simp [coerceValue, h]
  | vStr s =>
    simp only [conformsToType, decide_eq_true_eq] at h
    simp [coerceValue, h]
  | vInt n =>
    simp only [conformsToType, decide_eq_true_eq] at h
    simp [coerceValue, h]
  | vFloat q =>
    simp only [conformsToType, decide_eq_true_eq] at h
    simp [coerceValue, h]
  | vBool b =>
    simp only [conformsToType, decide_eq_true_eq] at h
    simp [coerceValue, h]
  | vListStr l =>
    simp only [conformsToType, decide_eq_true_eq] at h
    simp [coerceValue, h]
  | vDict m =>
    simp only [conformsToType, decide_eq_true_eq] at h
    simp [coerceValue, h]
  | vMap m => simp [conformsToType] at h

theorem coerceValue_idem (d : FieldDesc) (v v2 : Value)
    (h : coerceValue d v = .ok v2) : coerceValue d v2 = .ok v2 :=
  coerce_id_of_conforms d v2 (coerce_ok_conforms d v v2 h)

theorem coerceAndCheck_idem (name : String) (d : FieldDesc) (v v2 : Value)
    (h : coerceAndCheck name d v = .ok v2) : coerceAndCheck name d v2 = .ok v2 := by
  unfold coerceAndCheck at h ⊢
  cases hc : coerceValue d v with
  | error e => rw [hc] at h; cases h
  | ok w =>
    rw [hc] at h
    simp only at h
    rcases checkConstraints_ok_inv name d.constraints w v2 h with ⟨hv, hall⟩
    subst hv
    rw [coerceValue_idem d v v2 hc]
    exact checkConstraints_of_all name d.constraints v2 hall

theorem validateAddress6_error_ne_nil (m : List (String × Value)) (vs : List Violation)
    (h : validateAddress6 m = .error vs) : vs ≠ [] := by
  simp only [validateAddress6] at h
  split at h
  · cases h
  · rename_i hne
    cases h
    simpa [List.isEmpty_iff] using hne

theorem validateAddress5_error_ne_nil (m : List (String × Value)) (vs : List Violation)
    (h : validateAddress5 m = .error vs) : vs ≠ [] := by
  simp only [validateAddress5] at h
  split at h
  · cases h
  · rename_i hne
    cases h
    simpa [List.isEmpty_iff] using hne

theorem addressField6_ne_error_nil (input : List (String × Value)) :
    addressField6 input ≠ .error [] := by
  unfold addressField6
  cases hf : findVal input "address" with
  | none => simp
  | some v =>
    cases v with
    | vMap m =>
      cases hv : validateAddress6 m with
      | ok vals => simp only [hv]; simp
      | error vs =>
        have hvs := validateAddress6_error_ne_nil m vs hv
        simp only [hv]
        simp [List.map_eq_nil_iff, hvs]
    | vStr s => simp
    | vInt n => simp
    | vFloat q => simp
    | vBool b => simp
    | vListStr l => simp
    | vDict l => simp
    | vNone => simp

theorem addressField5_ne_error_nil (input : List (String × Value)) :
    addressField5 input ≠ .error [] := by
  unfold addressField5
  cases hf : findVal input "address" with
  | none => simp
  | some v =>
    cases v with
    | vMap m =>
      cases hv : validateAddress5 m with
      | ok vals => simp only [hv]; simp
      | error vs =>
        have hvs := validateAddress5_error_ne_nil m vs hv
        simp only [hv]
        simp [List.map_eq_nil_iff, hvs]
    | vStr s => simp
    | vInt n => simp
    | vFloat q => simp
    | vBool b => simp
    | vListStr l => simp
    | vDict l => simp
    | vNone => simp

theorem validate6_ok_inv (input : List (String × Value)) (r : Record)
    (h : validate6 input = .ok r) :
    ∃ vn vg va vd,
      fieldResult "name" nameDesc6 input = .ok vn ∧
      fieldResult "gender" genderDesc6 input = .ok vg ∧
      fieldResult "age" ageDesc6 input = .ok va ∧
      addressField6 input = .ok vd ∧
      r = { values := [("name", vn), ("gender", vg), ("age", va), ("address", vd)],
            supplied := suppliedOf names6 input, bmiCache := none } := by
  simp only [validate6] at h
  rw [mkOut_ok_iff] at h
  obtain ⟨he, hr⟩ := h
  simp only [List.append_eq_nil, and_assoc] at he
  obtain ⟨h1, h2, h3, h4⟩ := he
  have e1 := ok_of_errs_nil _ (fieldResult_ne_error_nil "name" nameDesc6 input) h1
  have e2 := ok_of_errs_nil _ (fieldResult_ne_error_nil "gender" genderDesc6 input) h2
  have e3 := ok_of_errs_nil _ (fieldResult_ne_error_nil "age" ageDesc6 input) h3
  have e4 := ok_of_errs_nil _ (addressField6_ne_error_nil input) h4
  exact ⟨_, _, _, _, e1, e2, e3, e4, hr⟩

theorem conforms_tInt_inv (v : Value) (h : conformsToType .tInt false v = true) :
    ∃ n : Int, v = .vInt n := by
  cases v <;> simp [conformsToType] at h
  exact ⟨_, rfl⟩

theorem fieldResult_tInt_ok (name : String) (d : FieldDesc) (input : List (String × Value))
    (v : Value) (hty : d.ftype = .tInt) (hopt : d.optional = false) (hdef : d.default = none)
    (h : fieldResult name d input = .ok v) :
    ∃ n : Int, v = .vInt n ∧ ∀ c ∈ d.constraints, checkConstraint c (.vInt n) = true := by
  unfold fieldResult at h
  cases hf : findVal input name with
  | none =>
    rw [hf] at h
    simp only [hdef] at h
    cases h
  | some w =>
    rw [hf] at h
    simp only [coerceAndCheck] at h
    cases hc : coerceValue d w with
    | error e => rw [hc] at h; cases h
    | ok v2 =>
      rw [hc] at h
      simp only at h
      rcases checkConstraints_ok_inv name d.constraints v2 v h with ⟨hv, hall⟩
      have hcf := coerce_ok_conforms d w v2 hc
      rw [hty, hopt] at hcf
      rcases conforms_tInt_inv v2 hcf with ⟨n, hn⟩
      subst hn
      subst hv
      exact ⟨n, rfl, hall⟩

theorem gt_constraint_int (b n : Int) (h : checkConstraint (.gt (b : Rat)) (.vInt n) = true) :
    b < n := by
  simp [checkConstraint, asNum] at h
  exact_mod_cast h

theorem lt_constraint_int (b n : Int) (h : checkConstraint (.lt (b : Rat)) (.vInt n) = true) :
    n < b := by
  simp [checkConstraint, asNum] at h
  exact_mod_cast h

/-- Inversion of the file-1 / file-3 field phase at the age field: a
successful validation stores an integer strictly between the declared
bounds 0 and 25. -/
theorem validate1_ok_age (input : List (String × Value)) (r : Record)
    (h : validate1 input = .ok r) :
    ∃ n : Int, findVal r.values "age" = some (.vInt n) ∧ 0 < n ∧ n < 25 := by
  simp only [validate1] at h
  rw [mkOut_ok_iff] at h
  obtain ⟨he, hr⟩ := h
  simp only [List.append_eq_nil, and_assoc] at he
  obtain ⟨h1, h2, h3, h4, h5, h6, h7, h8⟩ := he
  have e4 := ok_of_errs_nil _ (fieldResult_ne_error_nil "age" ageDesc input) h4
  rcases fieldResult_tInt_ok "age" ageDesc input _ rfl rfl rfl e4 with ⟨n, hn, hall⟩
  refine ⟨n, ?_, ?_, ?_⟩
  · subst hr
    have hv : findVal
        [("name", valOf (fieldResult "name" nameDesc input)),
         ("email", valOf (fieldResult "email" emailDesc input)),
         ("linkedin", valOf (fieldResult "linkedin" linkedinDesc input)),
         ("age", valOf (fieldResult "age" ageDesc input)),
         ("weight", valOf (fieldResult "weight" weightDesc input)),
         ("married", valOf (fieldResult "married" marriedDesc input)),
         ("allergies", valOf (fieldResult "allergies" allergiesDesc input)),
         ("contact_details", valOf (fieldResult "contact_details" contactDesc input))] "age"
        = some (valOf (fieldResult "age" ageDesc input)) := by simp [findVal]
    rw [hv, hn]
  · exact gt_constraint_int 0 n (by exact_mod_cast hall (.gt 0) (by simp [ageDesc]))
  · exact lt_constraint_int 25 n (by exact_mod_cast hall (.lt 25) (by simp [ageDesc]))

theorem serialize_default (r : Record) : serialize r {} = r.values := by
  simp [serialize, keepField]

theorem fieldResult_revalidate (name : String) (d : FieldDesc)
    (input : List (String × Value)) (v : Value) (hdef : d.default = none)
    (h : fieldResult name d input = .ok v) : coerceAndCheck name d v = .ok v := by
  unfold fieldResult at h
  cases hf : findVal input name with
  | none => rw [hf] at h; simp [hdef] at h
  | some w => rw [hf] at h; exact coerceAndCheck_idem name d w v h

theorem fieldResult_name6_revalidate (input : List (String × Value)) (v : Value)
    (h : fieldResult "name" nameDesc6 input = .ok v) :
    coerceAndCheck "name" nameDesc6 v = .ok v := by
  unfold fieldResult at h
  cases hf : findVal input "name" with
  | none =>
    rw [hf] at h
    have hd : nameDesc6.default = some (.vStr "User") := rfl
    rw [hd] at h
    simp only [Except.ok.injEq] at h
    rw [h.symm]
    rfl
  | some w => rw [hf] at h; exact coerceAndCheck_idem "name" nameDesc6 w v h

theorem validateAddress6_ok_inv (m : List (String × Value)) (vals : List (String × Value))
    (h : validateAddress6 m = .ok vals) :
    ∃ vc vs vp,
      fieldResult "city" cityDesc6 m = .ok vc ∧
      fieldResult "state" stateDesc6 m = .ok vs ∧
      fieldResult "pin" pinDesc6 m = .ok vp ∧
      vals = [("city", vc), ("state", vs), ("pin", vp)] := by
  simp only [validateAddress6] at h
  split at h
  · rename_i hnil
    simp only [Except.ok.injEq] at h
    simp only [List.isEmpty_iff, List.append_eq_nil, and_assoc] at hnil
    obtain ⟨h1, h2, h3⟩ := hnil
    have e1 := ok_of_errs_nil _ (fieldResult_ne_error_nil "city" cityDesc6 m) h1
    have e2 := ok_of_errs_nil _ (fieldResult_ne_error_nil "state" stateDesc6 m) h2
    have e3 := ok_of_errs_nil _ (fieldResult_ne_error_nil "pin" pinDesc6 m) h3
    exact ⟨_, _, _, e1, e2, e3, h.symm⟩
  · cases h

theorem validateAddress6_idem (m : List (String × Value)) (vals : List (String × Value))
    (h : validateAddress6 m = .ok vals) : validateAddress6 vals = .ok vals := by
  rcases validateAddress6_ok_inv m vals h with ⟨vc, vs, vp, hc, hs, hp, hvals⟩
  subst hvals
  have hc' : fieldResult "city" cityDesc6 [("city", vc), ("state", vs), ("pin", vp)] = .ok vc := by
    unfold fieldResult
    simp only [findVal]
    exact fieldResult_revalidate "city" cityDesc6 m vc rfl hc
  have hs' : fieldResult "state" stateDesc6 [("city", vc), ("state", vs), ("pin", vp)] = .ok vs := by
    unfold fieldResult
    have : findVal [("city", vc), ("state", vs), ("pin", vp)] "state" = some vs := by
      simp [findVal]
    rw [this]
    exact fieldResult_revalidate "state" stateDesc6 m vs rfl hs
  have hp' : fieldResult "pin" pinDesc6 [("city", vc), ("state", vs), ("pin", vp)] = .ok vp := by
    unfold fieldResult
    have : findVal [("city", vc), ("state", vs), ("pin", vp)] "pin" = some vp := by
      simp [findVal]
    rw [this]
    exact fieldResult_revalidate "pin" pinDesc6 m vp rfl hp
  simp [validateAddress6, hc', hs', hp', errsOf, valOf]

theorem addressField6_ok_inv (input : List (String × Value)) (vd : Value)
    (h : addressField6 input = .ok vd) :
    ∃ vals, vd = .vMap vals ∧ validateAddress6 vals = .ok vals := by
  unfold addressField6 at h
  cases hf : findVal input "address" with
  | none => rw [hf] at h; cases h
  | some v =>
    rw [hf] at h
    cases v with
    | vMap m =>
      simp only at h
      cases hv : validateAddress6 m with
      | ok vals =>
        rw [hv] at h
        simp only [Except.ok.injEq] at h
        exact ⟨vals, h.symm, validateAddress6_idem m vals hv⟩
      | error vs => rw [hv] at h; cases h
    | vStr s => simp at h
    | vInt n => simp at h
    | vFloat q => simp at h
    | vBool b => simp at h
    | vListStr l => simp at h
    | vDict l => simp at h
    | vNone => simp at h

/-- Re-validating the serialized form of a record produced by the file-6
schema succeeds and reproduces exactly the same field values; the
supplied-field tracking of the round-tripped record marks every field as
supplied. -/
theorem validate6_roundtrip (input : List (String × Value)) (r : Record)
    (h : validate6 input = .ok r) :
    validate6 (serialize r {}) =
      .ok { values := r.values, supplied := names6, bmiCache := none } := by
  rcases validate6_ok_inv input r h with ⟨vn, vg, va, vd, hn, hg, ha, hd, hr⟩
  rcases addressField6_ok_inv input vd hd with ⟨vals, hvd, hidem⟩
  subst hvd
  subst hr
  rw [serialize_default]
  have hn' : fieldResult "name" nameDesc6
      [("name", vn), ("gender", vg), ("age", va), ("address", .vMap vals)] = .ok vn := by
    unfold fieldResult
    simp only [findVal]
    exact fieldResult_name6_revalidate input vn hn
  have hg' : fieldResult "gender" genderDesc6
      [("name", vn), ("gender", vg), ("age", va), ("address", .vMap vals)] = .ok vg := by
    unfold fieldResult
    have : findVal [("name", vn), ("gender", vg), ("age", va), ("address", .vMap vals)]
        "gender" = some vg := by simp [findVal]
    rw [this]
    exact fieldResult_revalidate "gender" genderDesc6 input vg rfl hg
  have ha' : fieldResult "age" ageDesc6
      [("name", vn), ("gender", vg), ("age", va), ("address", .vMap vals)] = .ok va := by
    unfold fieldResult
    have : findVal [("name", vn), ("gender", vg), ("age", va), ("address", .vMap vals)]
        "age" = some va := by simp [findVal]
    rw [this]
    exact fieldResult_revalidate "age" ageDesc6 input va rfl ha
  have hd' : addressField6
      [("name", vn), ("gender", vg), ("age", va), ("address", .vMap vals)] = .ok (.vMap vals) := by
    unfold addressField6
    have : findVal [("name", vn), ("gender", vg), ("age", va), ("address", .vMap vals)]
        "address" = some (.vMap vals) := by simp [findVal]
    rw [this]
    simp only [hidem]
  simp only [validate6, hn', hg', ha', hd', errsOf, valOf, List.append_nil, mkOut,
    List.isEmpty_nil, if_true]
  rfl

/-- A nested address failure in the file-5 schema: the outcome is the
violation list in which every sibling field's violations appear in full and
the nested violations appear under the composite `address.` path. -/
theorem validate5_nested (input m : List (String × Value)) (vs : List Violation)
    (hf : findVal input "address" = some (.vMap m))
    (hv : validateAddress5 m = .error vs) :
    validate5 input = .error
      (errsOf (fieldResult "name" nameDesc input) ++
       errsOf (fieldResult "gender" genderDesc5 input) ++
       errsOf (fieldResult "age" ageDesc5 input) ++
       vs.map (fun pe => ("address." ++ pe.1, pe.2))) := by
  have hd : addressField5 input = .error (vs.map (fun pe => ("address." ++ pe.1, pe.2))) := by
    simp only [addressField5, hf, hv]
  have hvs : vs ≠ [] := validateAddress5_error_ne_nil m vs hv
  have hne : (errsOf (fieldResult "name" nameDesc input) ++
       errsOf (fieldResult "gender" genderDesc5 input) ++
       errsOf (fieldResult "age" ageDesc5 input) ++
       vs.map (fun pe => ("address." ++ pe.1, pe.2))) ≠ [] := by
    intro hc
    simp [List.append_eq_nil, List.map_eq_nil_iff, hvs] at hc
  simp only [validate5, hd, errsOf]
  exact mkOut_error_of_ne _ _ hne

theorem validate4_extra_key (v : Value) (input : List (String × Value)) :
    validate4 (("calculate_bmi", v) :: input) = validate4 input := by
  have k1 : ("calculate_bmi" : String) ≠ "name" := by decide
  have k2 : ("calculate_bmi" : String) ≠ "email" := by decide
  have k3 : ("calculate_bmi" : String) ≠ "linkedin" := by decide
  have k4 : ("calculate_bmi" : String) ≠ "age" := by decide
  have k5 : ("calculate_bmi" : String) ≠ "weight" := by decide
  have k6 : ("calculate_bmi" : String) ≠ "height" := by decide
  have k7 : ("calculate_bmi" : String) ≠ "married" := by decide
  have k8 : ("calculate_bmi" : String) ≠ "allergies" := by decide
  have k9 : ("calculate_bmi" : String) ≠ "contact_details" := by decide
  have hmem : ("calculate_bmi" : String) ∉ names4 := by decide
  simp only [validate4]
  rw [fieldResult_cons_ne "name" "calculate_bmi" v nameDesc input k1,
      fieldResult_cons_ne "email" "calculate_bmi" v emailDesc input k2,
      fieldResult_cons_ne "linkedin" "calculate_bmi" v linkedinDesc input k3,
      fieldResult_cons_ne "age" "calculate_bmi" v ageDesc4 input k4,
      fieldResult_cons_ne "weight" "calculate_bmi" v weightDesc4 input k5,
      fieldResult_cons_ne "height" "calculate_bmi" v heightDesc4 input k6,
      fieldResult_cons_ne "married" "calculate_bmi" v marriedDesc4 input k7,
      fieldResult_cons_ne "allergies" "calculate_bmi" v allergiesDesc4 input k8,
      fieldResult_cons_ne "contact_details" "calculate_bmi" v contactDesc input k9,
      suppliedOf_cons_notmem names4 "calculate_bmi" v input hmem]

theorem validate4_ok_cache_none (input : List (String × Value)) (r : Record)
    (h : validate4 input = .ok r) : r.bmiCache = none := by
  simp only [validate4] at h
  rw [mkOut_ok_iff] at h
  rw [h.2]

/-! ## The claims -/

/-- C1: validation of an integer or float field accepts a same-shaped string
and parses it to the declared numeric type (the non-strict age field turns
"22" into the integer 22, and a non-strict float field parses any
same-shaped string), while the strict float field `weight` rejects every
string — in particular "44.2" — with a TypeMismatch violation, and rejects
every non-float value. -/
theorem claim_c1_strict_and_coercion :
    (∀ (s : String) (n : Int), parseIntStr s = some n →
        coerceValue ageDesc (.vStr s) = .ok (.vInt n)) ∧
    (∀ (s : String) (q : Rat), parseRatStr s = some q →
        coerceValue weightDesc4 (.vStr s) = .ok (.vFloat q)) ∧
    (∀ s : String, coerceValue weightDesc (.vStr s) = .error .typeMismatch) ∧
    (∀ n : Int, coerceValue weightDesc (.vInt n) = .error .typeMismatch) ∧
    fieldResult "age" ageDesc patientInfo1 = .ok (.vInt 22) ∧
    fieldResult "weight" weightDesc [("weight", .vStr "44.2")] =
      .error [("weight", .typeMismatch)] := by
  refine ⟨?_, ?_, ?_, ?_, rfl, rfl⟩
  · intro s n h
    simp [coerceValue, ageDesc, h]
  · intro s q h
    simp [coerceValue, weightDesc4, h]
  · intro s
    rfl
  · intro n
    rfl

/-- Witness for C1 at the concrete inputs of the claim. -/
theorem claim_c1_strict_and_coercion_witness :
    parseIntStr "22" = some 22 ∧
    coerceValue ageDesc (.vStr "22") = .ok (.vInt 22) ∧
    parseRatStr "44.2" = some (mkRat 221 5) ∧
    coerceValue weightDesc4 (.vStr "44.2") = .ok (.vFloat (mkRat 221 5)) ∧
    coerceValue weightDesc (.vStr "44.2") = .error .typeMismatch :=
  ⟨rfl, claim_c1_strict_and_coercion.1 "22" 22 rfl, rfl,
   claim_c1_strict_and_coercion.2.1 "44.2" (mkRat 221 5) rfl,
   claim_c1_strict_and_coercion.2.2.1 "44.2"⟩

/-- C2: the age field with exclusive bounds gt=0, lt=25 accepts every
integer strictly between the bounds and records a ConstraintViolation for
the violated bound at or beyond them. -/
theorem claim_c2_age_bounds (n : Int) :
    (0 < n ∧ n < 25 →
      fieldResult "age" ageDesc [("age", .vInt n)] = .ok (.vInt n)) ∧
    (n ≤ 0 →
      fieldResult "age" ageDesc [("age", .vInt n)] =
        .error [("age", .constraintViolation (.gt 0))]) ∧
    (25 ≤ n →
      fieldResult "age" ageDesc [("age", .vInt n)] =
        .error [("age", .constraintViolation (.lt 25))]) := by
  refine ⟨?_, ?_, ?_⟩
  · rintro ⟨h1, h2⟩
    have c1 : (0 : Rat) < (n : Rat) := by exact_mod_cast h1
    have c2 : (n : Rat) < (25 : Rat) := by exact_mod_cast h2
    simp [fieldResult, findVal, coerceAndCheck, coerceValue, ageDesc,
      checkConstraints, checkConstraint, asNum, c1, c2]
  · intro h
    have c1 : ¬((0 : Rat) < (n : Rat)) := by
      rw [not_lt]
      exact_mod_cast h
    simp [fieldResult, findVal, coerceAndCheck, coerceValue, ageDesc,
      checkConstraints, checkConstraint, asNum, c1]
  · intro h
    have c1 : (0 : Rat) < (n : Rat) := by
      have : (0 : Int) < n := lt_of_lt_of_le (by norm_num) h
      exact_mod_cast this
    have c2 : ¬((n : Rat) < (25 : Rat)) := by
      rw [not_lt]
      exact_mod_cast h
    simp [fieldResult, findVal, coerceAndCheck, coerceValue, ageDesc,
      checkConstraints, checkConstraint, asNum, c1, c2]

/-- Witness for C2 at 1, 24, 0 and 25. -/
theorem claim_c2_age_bounds_witness :
    fieldResult "age" ageDesc [("age", .vInt 1)] = .ok (.vInt 1) ∧
    fieldResult "age" ageDesc [("age", .vInt 24)] = .ok (.vInt 24) ∧
    fieldResult "age" ageDesc [("age", .vInt 0)] =
      .error [("age", .constraintViolation (.gt 0))] ∧
    fieldResult "age" ageDesc [("age", .vInt 25)] =
      .error [("age", .constraintViolation (.lt 25))] :=
  ⟨(claim_c2_age_bounds 1).1 (by decide), (claim_c2_age_bounds 24).1 (by decide),
   (claim_c2_age_bounds 0).2.1 (by decide), (claim_c2_age_bounds 25).2.2 (by decide)⟩

/-- The record produced by the file-1 schema on its own `patient_info`. -/
def rec1 : Record :=
  { values := [("name", .vStr "harsha"), ("email", .vStr "abc@gmail.com"),
               ("linkedin", .vStr "http://linkedin.com/"), ("age", .vInt 22),
               ("weight", .vFloat (mkRat 221 5)), ("married", .vNone),
               ("allergies", .vStr "No allergies"),
               ("contact_details", .vDict [("email", "abc@gmail.com"), ("phone", "12345")])],
    supplied := ["name", "email", "linkedin", "age", "weight", "contact_details"] }

/-- C3 (code bug): with `allergies` absent from the input, the file-1 schema
returns a record whose `allergies` value is the raw declared default
`'No allergies'` — a plain string that does not conform to the declared
optional string-sequence type `Optional[List[str]]`, because the default is
applied without re-validation.  The all-or-nothing phrasing of the claim is
therefore violated by the schema's own default value. -/
theorem claim_c3_allergies_default :
    validate1 patientInfo1 = .ok rec1 ∧
    findVal rec1.values "allergies" = some (.vStr "No allergies") ∧
    conformsToType allergiesDesc.ftype allergiesDesc.optional (.vStr "No allergies") = false :=
  ⟨rfl, rfl, rfl⟩

/-- C4 (code bug): the before-mode validator `validate_age` of file 2 runs
on the raw input value; on the string "28" the Python comparison `0 < value`
raises an uncontrolled `TypeError` (the outer error layer), not a Validation
Outcome failure. -/
theorem claim_c4_before_validator_fault :
    validate2 patientInfo2Str =
      .error "TypeError: < not supported between instances of int and str" := rfl

/-- C5: records are immutable once constructed: the only record-returning
operation of the interface, the lazy computed-field read, preserves every
field value and the supplied tracking, field access reads the same values
before and after it, and serialization is unaffected by it. -/
theorem claim_c5_record_immutable (r : Record) :
    ((readBMI r).2).values = r.values ∧
    ((readBMI r).2).supplied = r.supplied ∧
    (∀ k, findVal ((readBMI r).2).values k = findVal r.values k) ∧
    (∀ o, serialize ((readBMI r).2) o = serialize r o) := by
  obtain ⟨vals, sup, cache⟩ := r
  cases cache with
  | none => simp [readBMI, serialize, keepField]
  | some q => simp [readBMI]

/-- The record the file-6 schema builds from its own `patient_dict`
(`name` fell back to the default `'User'` and is not marked supplied). -/
def rec6 : Record :=
  { values := [("name", .vStr "User"), ("gender", .vStr "female"), ("age", .vInt 28),
               ("address", .vMap address6Values)],
    supplied := ["gender", "age", "address"] }

/-- Counterexample to C6 as stated: round-tripping the file-6 record whose
`name` fell back to the default yields a record with the same field values
but different supplied-field tracking, so the records are not equal. -/
theorem claim_c6_roundtrip_counterexample :
    validate6 patientDict6 = .ok rec6 ∧
    validate6 (serialize rec6 {}) = .ok { values := rec6.values, supplied := names6 } ∧
    ({ values := rec6.values, supplied := names6 } : Record) ≠ rec6 :=
  ⟨rfl, rfl, fun h => absurd (congrArg Record.supplied h) (by decide)⟩

/-- C6 (amended): for every input that validates against the file-6 schema,
validating the record's default serialization succeeds and returns a record
with exactly the same field values; only the supplied-field tracking can
differ, becoming the full field list. -/
theorem claim_c6_roundtrip (input : List (String × Value)) (r : Record)
    (h : validate6 input = .ok r) :
    validate6 (serialize r {}) =
      .ok { values := r.values, supplied := names6, bmiCache := none } :=
  validate6_roundtrip input r h

/-- Witness for C6 at the file-6 sample input. -/
theorem claim_c6_roundtrip_witness :
    validate6 (serialize rec6 {}) =
      .ok { values := rec6.values, supplied := names6, bmiCache := none } :=
  claim_c6_roundtrip patientDict6 rec6 rfl

/-- C7: `excludeUnset` keeps exactly the keys that were explicitly supplied
(omitting exactly the fields that fell back to a default), and
`includeOnly=["name","age"]` on a validated file-6 record returns the key
set exactly {name, age}. -/
theorem claim_c7_serialize_filters :
    (∀ (r : Record) (k : String),
        k ∈ dumpKeys r { excludeUnset := true } ↔
          k ∈ r.values.map Prod.fst ∧ r.supplied.contains k = true) ∧
    (∀ (input : List (String × Value)) (r : Record), validate6 input = .ok r →
        dumpKeys r { includeOnly := some ["name", "age"] } = ["name", "age"]) := by
  constructor
  · intro r k
    simp only [dumpKeys, serialize, keepField, List.elem_iff, List.mem_map,
      List.mem_filter, Bool.not_eq_true, Bool.and_eq_true, Bool.or_eq_true, Bool.not_false,
      Bool.true_and, decide_eq_true_eq]
    constructor
    · rintro ⟨⟨k2, v2⟩, ⟨hmem, hkeep⟩, rfl⟩
      refine ⟨⟨(k2, v2), hmem, rfl⟩, ?_⟩
      simpa using hkeep
    · rintro ⟨⟨⟨k2, v2⟩, hmem, rfl⟩, hsup⟩
      refine ⟨(k2, v2), ⟨hmem, ?_⟩, rfl⟩
      simpa using hsup
  · intro input r h
    rcases validate6_ok_inv input r h with ⟨vn, vg, va, vd, _, _, _, _, hr⟩
    subst hr
    rfl

/-- Witness for C7 at the file-6 record. -/
theorem claim_c7_serialize_filters_witness :
    dumpKeys rec6 { includeOnly := some ["name", "age"] } = ["name", "age"] :=
  claim_c7_serialize_filters.2 patientDict6 rec6 rfl

/-- C8: when the nested address fails, the outcome lists every nested
violation under the composite `address.` path together with all the sibling
fields' violations — the siblings were validated to completion. -/
theorem claim_c8_nested_path (input m : List (String × Value)) (vs : List Violation)
    (hf : findVal input "address" = some (.vMap m))
    (hv : validateAddress5 m = .error vs) :
    validate5 input = .error
      (errsOf (fieldResult "name" nameDesc input) ++
       errsOf (fieldResult "gender" genderDesc5 input) ++
       errsOf (fieldResult "age" ageDesc5 input) ++
       vs.map (fun pe => ("address." ++ pe.1, pe.2))) ∧
    (∀ pe ∈ vs, ("address." ++ pe.1, pe.2) ∈
      (errsOf (fieldResult "name" nameDesc input) ++
       errsOf (fieldResult "gender" genderDesc5 input) ++
       errsOf (fieldResult "age" ageDesc5 input) ++
       vs.map (fun pe => ("address." ++ pe.1, pe.2)))) ∧
    (∀ w ∈ errsOf (fieldResult "gender" genderDesc5 input), w ∈
      (errsOf (fieldResult "name" nameDesc input) ++
       errsOf (fieldResult "gender" genderDesc5 input) ++
       errsOf (fieldResult "age" ageDesc5 input) ++
       vs.map (fun pe => ("address." ++ pe.1, pe.2)))) := by
  refine ⟨validate5_nested input m vs hf hv, ?_, ?_⟩
  · intro pe hpe
    exact List.mem_append_right _ (List.mem_map_of_mem _ hpe)
  · intro w hw
    exact List.mem_append_left _ (List.mem_append_left _ (List.mem_append_right _ hw))

/-- The file-5 nested address with an out-of-range pin (99 < 100000). -/
def badAddress5 : List (String × Value) :=
  [("city", .vStr "Pune"), ("state", .vStr "MH"), ("pin", .vInt 99)]

/-- A file-5 input whose gender fails the pattern and whose nested address
pin fails its lower bound. -/
def badPatient5 : List (String × Value) :=
  [("name", .vStr "Harsha"), ("gender", .vStr "unknown"), ("age", .vStr "28"),
   ("address", .vMap badAddress5)]

/-- Witness for C8: both the sibling gender violation and the composite-path
nested pin violation appear in the outcome. -/
theorem claim_c8_nested_path_witness :
    validate5 badPatient5 = .error
      [("gender", .constraintViolation (.oneOf ["male", "female", "other"])),
       ("address.pin", .constraintViolation (.ge 100000))] :=
  (claim_c8_nested_path badPatient5 badAddress5
    [("pin", .constraintViolation (.ge 100000))] rfl rfl).1

/-- C9: the derived field is a pure function of the validated weight and
height — `round(weight / height², 2)` — absent from the record until first
read (lazy), cached so a second read returns the same value and changes
nothing further, field values are untouched by the read, and a
`calculate_bmi` input key is ignored by validation entirely. -/
theorem claim_c9_computed_field (input : List (String × Value)) (r : Record)
    (h : validate4 input = .ok r) :
    r.bmiCache = none ∧
    (readBMI r).1 =
      round2 (ratDiv (getFloatField r "weight")
        (ratMul (getFloatField r "height") (getFloatField r "height"))) ∧
    readBMI ((readBMI r).2) = readBMI r ∧
    ((readBMI r).2).values = r.values ∧
    (∀ v, validate4 (("calculate_bmi", v) :: input) = validate4 input) := by
  have hc := validate4_ok_cache_none input r h
  refine ⟨hc, ?_, ?_, ?_, fun v => validate4_extra_key v input⟩
  · simp [readBMI, hc]
  · simp [readBMI, hc]
  · simp [readBMI, hc]

/-- The record the file-4 schema builds from its own `patient_info`. -/
def rec4 : Record :=
  { values := [("name", .vStr "harsha"), ("email", .vStr "abc@hdfc.com"),
               ("linkedin", .vStr "http://linkedin.com/"), ("age", .vInt 28),
               ("weight", .vFloat (mkRat 376 5)), ("height", .vFloat (mkRat 43 25)),
               ("married", .vBool true), ("allergies", .vListStr ["pollen", "dust"]),
               ("contact_details", .vDict [("email", "abc@gmail.com"), ("phone", "12345")])],
    supplied := names4 }

/-- Witness for C9 at the file-4 sample input: the BMI of weight 75.2 and
height 1.72 is 25.42 exactly, and validation ignores a `calculate_bmi`
input key. -/
theorem claim_c9_computed_field_witness :
    (readBMI rec4).1 = mkRat 1271 50 ∧
    validate4 (("calculate_bmi", .vBool true) :: patientInfo4) = validate4 patientInfo4 := by
  have h := claim_c9_computed_field patientInfo4 rec4 rfl
  refine ⟨?_, h.2.2.2.2 (.vBool true)⟩
  rw [h.2.1]
  rfl

/-- C10: the model-level emergency-contact validator of file 3 never fires:
any record that passes the field phase has age < 25 by the age constraint,
so the `age > 60` branch is unreachable and every field-valid input yields a
record. -/
theorem claim_c10_model_validator_unreachable (input : List (String × Value)) (r : Record)
    (h : validate3Fields input = .ok r) :
    emergencyValidator r = .ok r ∧ validate3 input = .ok r := by
  rcases validate1_ok_age input r h with ⟨n, hv, hpos, hlt⟩
  have hage : ageOf r = n := by simp [ageOf, hv]
  have hlt60 : ¬(60 < ageOf r) := by
    rw [hage]
    omega
  have hev : emergencyValidator r = .ok r := by
    simp [emergencyValidator, hlt60]
  exact ⟨hev, by simp [validate3, h, hev]⟩

/-- A field-valid file-3 input (the file's own literal with an in-range
age). -/
def patientInfo3 : List (String × Value) :=
  [("name", .vStr "harsha"),
   ("email", .vStr "abc@hdfc.com"),
   ("linkedin", .vStr "http://linkedin.com/"),
   ("age", .vStr "22"),
   ("weight", .vFloat (mkRat 221 5)),
   ("contact_details", .vDict [("email", "abc@gmail.com"), ("phone", "12345")])]

/-- The record the file-3 schema builds from `patientInfo3`. -/
def rec3 : Record :=
  { values := [("name", .vStr "harsha"), ("email", .vStr "abc@hdfc.com"),
               ("linkedin", .vStr "http://linkedin.com/"), ("age", .vInt 22),
               ("weight", .vFloat (mkRat 221 5)), ("married", .vNone),
               ("allergies", .vStr "No allergies"),
               ("contact_details", .vDict [("email", "abc@gmail.com"), ("phone", "12345")])],
    supplied := ["name", "email", "linkedin", "age", "weight", "contact_details"] }

/-- Witness for C10: the field-valid sample input passes the model validator
and yields its record. -/
theorem claim_c10_model_validator_unreachable_witness :
    validate3 patientInfo3 = .ok rec3 :=
  (claim_c10_model_validator_unreachable patientInfo3 rec3 rfl).2
